import Mathlib

/-!
Verification of the Edilkamin Home Assistant config flow
(`custom_components/edilkamin/config_flow.py`).

Python dictionaries holding string values are embedded as ordered
association lists (`Dict`).  The external `edilkamin.sign_in` call is
embedded as an environment function `EdilkaminEnv` mapping the submitted
credentials to an outcome: either a returned token (a string, where the
empty string models every falsy return) or a raised exception identified
by its class name.  The flow's mutable instance fields become an explicit
`ConfigFlowState` threaded through the step functions, and each step
returns the updated state together with a `FlowResult` mirroring the
Home Assistant flow result it produces (`async_show_form`,
`async_create_entry`, abort, or an uncaught Python exception).
-/

namespace Edilkamin

/-- A Python `dict[str, str]` as an ordered association list. -/
abbrev Dict := List (String × String)

/-- Python `d[k]` lookup: first binding wins (a real Python dict has
no duplicate keys, so the first binding is the only one). -/
def dlookup : Dict → String → Option String
  | [], _ => none
  | (k', v) :: rest, k => if k' = k then some v else dlookup rest k

/-- Python `d[k] = v`: overwrite in place if the key exists, else append. -/
def dinsert : Dict → String → String → Dict
  | [], k, v => [(k, v)]
  | (k', v') :: rest, k, v =>
    if k' = k then (k, v) :: rest else (k', v') :: dinsert rest k v

/-- Python dict union `d1 | d2`: entries of `d2` override those of `d1`. -/
def dmerge (d1 d2 : Dict) : Dict :=
  d2.foldl (fun a kv => dinsert a kv.1 kv.2) d1

/-- Outcome of one call to the external `edilkamin.sign_in` function:
either it returns a token (the empty string standing for any falsy
return value) or it raises an exception with the given class name. -/
inductive SignInResult where
  | token (t : String)
  | raise (excName : String)
deriving DecidableEq, Repr

/-- The behaviour of the external authentication service: what
`edilkamin.sign_in username password` does for each credential pair. -/
def EdilkaminEnv := String → String → SignInResult

/-- The Python exceptions that can escape `validate_input`:
the two flow-specific errors raised by `EdilkaminHub.authenticate`
(or by the falsy-token check), and a `KeyError` from the dictionary
accesses `data[CONF_USERNAME]` / `data[CONF_PASSWORD]`. -/
inductive PyExc where
  | invalidAuth
  | cannotConnect
  | keyError (key : String)
deriving DecidableEq, Repr

/-- `EdilkaminHub.authenticate`: runs `edilkamin.sign_in`; on an
exception, re-raises `InvalidAuth` when the exception's class name is
`"NotAuthorizedException"` and `CannotConnect` otherwise; on a normal
return it returns the token. -/
def authenticate (env : EdilkaminEnv) (username password : String) :
    Except PyExc String :=
  match env username password with
  | .token t => .ok t
  | .raise n =>
    if n = "NotAuthorizedException" then .error .invalidAuth
    else .error .cannotConnect

/-- The `if CONF_NAME not in data: data[CONF_NAME] = "Pellet Stove"`
mutation performed by `validate_input` on the caller's dict. -/
def nameDefaulted (data : Dict) : Dict :=
  match dlookup data "name" with
  | some _ => data
  | none => dinsert data "name" "Pellet Stove"

/-- `validate_input`: reads `username`/`password` from `data`
(`KeyError` if absent), defaults the `name` key to `"Pellet Stove"`
when missing (mutating the caller's dict, returned as the first
component), then authenticates; a falsy token raises `InvalidAuth`. -/
def validate_input (env : EdilkaminEnv) (data : Dict) :
    Dict × Except PyExc Unit :=
  match dlookup data "username" with
  | none => (data, .error (.keyError "username"))
  | some username =>
    match dlookup data "password" with
    | none => (data, .error (.keyError "password"))
    | some password =>
      let data1 := nameDefaulted data
      match authenticate env username password with
      | .error e => (data1, .error e)
      | .ok token =>
        if token = "" then (data1, .error .invalidAuth)
        else (data1, .ok ())

/-- Hex digit, case-insensitive. -/
def isHexDigit (c : Char) : Bool :=
  c.isDigit || ('a' ≤ c && c ≤ 'f') || ('A' ≤ c && c ≤ 'F')

/-- Exactly two hex digits. -/
def isHexPair : List Char → Bool
  | [a, b] => isHexDigit a && isHexDigit b
  | _ => false

/-- Split a character list on a delimiter character (like
`str.split(delim)`: n delimiters give n+1 groups). -/
def splitOnChar (c : Char) : List Char → List (List Char)
  | [] => [[]]
  | a :: rest =>
    match splitOnChar c rest with
    | [] => if a = c then [[], []] else [[a]]
    | g :: gs => if a = c then [] :: g :: gs else (a :: g) :: gs

/-- Six groups of two hex digits separated by the single delimiter `d`. -/
def sixHexGroups (d : Char) (l : List Char) : Bool :=
  let parts := splitOnChar d l
  parts.length = 6 && parts.all isHexPair

/-- Modelled from the spec: `is_valid_mac_address` lives in this
repository's `custom_components/edilkamin/utils.py`, which is not among
the sources.  Per the spec it accepts exactly 6 groups of 2 hex digits
(12 hex digits total, case-insensitive) separated by a single
consistent delimiter — colon or hyphen — or by no delimiter at all;
anything else is rejected. -/
def is_valid_mac_address (s : String) : Bool :=
  let l := s.toList
  (l.length = 12 && l.all isHexDigit) || sixHexGroups ':' l || sixHexGroups '-' l

/-- The delimiter-stripped, lowercased hex digits of a MAC string. -/
def stripLower (s : String) : List Char :=
  (s.toList.filter (fun c => !(c == ':') && !(c == '-'))).map Char.toLower

/-- Group a character list into two-character strings. -/
def chunk2 : List Char → List String
  | a :: b :: rest => String.mk [a, b] :: chunk2 rest
  | [a] => [String.mk [a]]
  | [] => []

/-- The canonical colon-separated lowercase rendering of a MAC string. -/
def canonicalMac (s : String) : String :=
  String.intercalate ":" (chunk2 (stripLower s))

/-- Modelled from the spec: MAC normalization is delegated to the host's
device-registry `format_mac` helper, which is not among the sources.
Per the spec, every supported 12-hex-digit form (colon-, hyphen- or
undelimited, any letter case) normalizes to the same canonical
colon-separated lowercase form; a string not in a supported form is
passed through unchanged. -/
def format_mac (mac : String) : String :=
  if is_valid_mac_address mac then canonicalMac mac else mac

/-- The wizard's mutable instance fields: `_discovered_mac`, the
unique id set by `async_set_unique_id`, and the accumulated `data`. -/
structure ConfigFlowState where
  discovered_mac : Option String
  unique_id : Option String
  data : Dict
deriving DecidableEq, Repr

/-- A freshly constructed `ConfigFlow`. -/
def initFlow : ConfigFlowState := ⟨none, none, []⟩

/-- The result a step hands back to the Home Assistant host:
re-show a form (with an errors dict), create a config entry
(title and data), abort the flow, or let a Python exception escape. -/
inductive FlowResult where
  | showForm (stepId : String) (errors : Dict)
  | createEntry (title : String) (data : Dict)
  | abort (reason : String)
  | pyError (msg : String)
deriving DecidableEq, Repr

/-- Error codes attached to the credential form by `async_step_cred`:
`CannotConnect` is caught as `cannot_connect`, `InvalidAuth` as
`invalid_auth`, and any other exception as `unknown` (after logging). -/
def errCode : PyExc → String
  | .cannotConnect => "cannot_connect"
  | .invalidAuth => "invalid_auth"
  | .keyError _ => "unknown"

/-- `ConfigFlow.async_step_cred`: without input, show the credential
form; with input, run `validate_input` and either re-show the form
with the mapped error code, or merge the (mutated) input into the
accumulated data and create the entry titled by the stored MAC. -/
def async_step_cred (env : EdilkaminEnv) (s : ConfigFlowState)
    (user_input : Option Dict) : ConfigFlowState × FlowResult :=
  match user_input with
  | none => (s, .showForm "cred" [])
  | some input =>
    match validate_input env input with
    | (_, .error e) => (s, .showForm "cred" [("base", errCode e)])
    | (input1, .ok _) =>
      let s1 := { s with data := dmerge s.data input1 }
      match dlookup s1.data "mac" with
      | none => (s1, .pyError "KeyError: mac")
      | some mac => (s1, .createEntry mac s1.data)

/-- `ConfigFlow._async_handle_discovery`: normalize the discovered MAC,
store it, set it as the flow's unique id, abort if an entry with that
unique id is already configured, otherwise go to the credential step. -/
def handle_discovery (env : EdilkaminEnv) (configured : List String)
    (s : ConfigFlowState) : ConfigFlowState × FlowResult :=
  let mac := format_mac (s.discovered_mac.getD "")
  let s1 := { s with data := dinsert s.data "mac" mac, unique_id := some mac }
  if mac ∈ configured then (s1, .abort "already_configured")
  else async_step_cred env s1 none

/-- `ConfigFlow.async_step_dhcp`: record the discovered MAC address and
delegate to `_async_handle_discovery`. -/
def async_step_dhcp (env : EdilkaminEnv) (configured : List String)
    (s : ConfigFlowState) (macaddress : String) :
    ConfigFlowState × FlowResult :=
  handle_discovery env configured { s with discovered_mac := some macaddress }

/-- `ConfigFlow.async_step_user`: without input, show the MAC form;
with input, validate the submitted MAC (re-show the form with
`invalid_mac` on failure), otherwise normalize and store it and go to
the credential step.  No duplicate check is performed on this path. -/
def async_step_user (env : EdilkaminEnv) (s : ConfigFlowState)
    (user_input : Option Dict) : ConfigFlowState × FlowResult :=
  match user_input with
  | none => (s, .showForm "user" [])
  | some input =>
    match dlookup input "mac" with
    | none => (s, .pyError "KeyError: mac")
    | some m =>
      if is_valid_mac_address m = false then
        (s, .showForm "user" [("base", "invalid_mac")])
      else
        let mac := format_mac m
        async_step_cred env { s with data := dinsert s.data "mac" mac } none

/-! ### Dictionary lemmas -/

theorem dlookup_dinsert_self (d : Dict) (k v : String) :
    dlookup (dinsert d k v) k = some v := by
  induction d with
  | nil => simp [dinsert, dlookup]
  | cons hd tl ih =>
    obtain ⟨a, b⟩ := hd
    by_cases ha : a = k
    · simp [dinsert, ha, dlookup]
    · simp [dinsert, ha, dlookup, ih]

theorem dlookup_dinsert_ne (d : Dict) {k k' : String} (v : String)
    (h : k' ≠ k) : dlookup (dinsert d k v) k' = dlookup d k' := by
  induction d with
  | nil => simp [dinsert, dlookup, Ne.symm h]
  | cons hd tl ih =>
    obtain ⟨a, b⟩ := hd
    by_cases ha : a = k
    · subst ha; simp [dinsert, dlookup, Ne.symm h]
    · simp [dinsert, ha, dlookup, ih]

theorem dlookup_eq_none_of_not_mem (d : Dict) {k : String}
    (h : k ∉ d.map Prod.fst) : dlookup d k = none := by
  induction d with
  | nil => rfl
  | cons hd tl ih =>
    obtain ⟨a, b⟩ := hd
    simp only [List.map_cons, List.mem_cons] at h
    push_neg at h
    simp [dlookup, Ne.symm h.1, ih h.2]

theorem dmerge_cons (d1 : Dict) (a b : String) (tl : Dict) :
    dmerge d1 ((a, b) :: tl) = dmerge (dinsert d1 a b) tl := rfl

theorem dlookup_dmerge_none (d2 : Dict) (d1 : Dict) {k : String}
    (h : dlookup d2 k = none) :
    dlookup (dmerge d1 d2) k = dlookup d1 k := by
  induction d2 generalizing d1 with
  | nil => rfl
  | cons hd tl ih =>
    obtain ⟨a, b⟩ := hd
    have ha : a ≠ k := by
      intro hh; subst hh; simp [dlookup] at h
    have htl : dlookup tl k = none := by
      simpa [dlookup, ha] using h
    rw [dmerge_cons, ih _ htl, dlookup_dinsert_ne _ _ (Ne.symm ha)]

theorem dlookup_dmerge_some (d2 : Dict) (d1 : Dict) {k v : String}
    (hnd : (d2.map Prod.fst).Nodup) (h : dlookup d2 k = some v) :
    dlookup (dmerge d1 d2) k = some v := by
  induction d2 generalizing d1 with
  | nil => simp [dlookup] at h
  | cons hd tl ih =>
    obtain ⟨a, b⟩ := hd
    simp only [List.map_cons, List.nodup_cons] at hnd
    by_cases ha : a = k
    · subst ha
      have hv : b = v := by simpa [dlookup] using h
      subst hv
      have htl : dlookup tl a = none :=
        dlookup_eq_none_of_not_mem tl hnd.1
      rw [dmerge_cons, dlookup_dmerge_none tl _ htl, dlookup_dinsert_self]
    · have htl : dlookup tl k = some v := by simpa [dlookup, ha] using h
      rw [dmerge_cons]
      exact ih _ hnd.2 htl

theorem mem_keys_dinsert {d : Dict} {k v x : String} :
    x ∈ (dinsert d k v).map Prod.fst ↔ x = k ∨ x ∈ d.map Prod.fst := by
  induction d with
  | nil => simp [dinsert]
  | cons hd tl ih =>
    obtain ⟨a, b⟩ := hd
    by_cases ha : a = k
    · subst ha; simp [dinsert]
    · simp only [dinsert, ha, if_false, List.map_cons, List.mem_cons, ih]
      tauto

theorem nodup_keys_dinsert (d : Dict) (k v : String)
    (h : (d.map Prod.fst).Nodup) :
    ((dinsert d k v).map Prod.fst).Nodup := by
  induction d with
  | nil => simp [dinsert]
  | cons hd tl ih =>
    obtain ⟨a, b⟩ := hd
    simp only [List.map_cons, List.nodup_cons] at h
    by_cases ha : a = k
    · subst ha
      have hins : dinsert ((a, b) :: tl) a v = (a, v) :: tl := by
        simp [dinsert]
      rw [hins]
      simp only [List.map_cons, List.nodup_cons]
      exact ⟨h.1, h.2⟩
    · simp only [dinsert, ha, if_false, List.map_cons, List.nodup_cons]
      refine ⟨?_, ih h.2⟩
      rw [mem_keys_dinsert]
      rintro (rfl | hmem)
      · exact ha rfl
      · exact h.1 hmem

theorem dlookup_nameDefaulted_ne (data : Dict) {k : String}
    (h : k ≠ "name") :
    dlookup (nameDefaulted data) k = dlookup data k := by
  unfold nameDefaulted
  cases hn : dlookup data "name" with
  | some v => rfl
  | none => exact dlookup_dinsert_ne data _ h

theorem dlookup_nameDefaulted_name_none (data : Dict)
    (h : dlookup data "name" = none) :
    dlookup (nameDefaulted data) "name" = some "Pellet Stove" := by
  unfold nameDefaulted
  rw [h]
  exact dlookup_dinsert_self data _ _

theorem dlookup_nameDefaulted_name_some (data : Dict) {v : String}
    (h : dlookup data "name" = some v) :
    dlookup (nameDefaulted data) "name" = some v := by
  unfold nameDefaulted
  rw [h]
  exact h

theorem nodup_keys_nameDefaulted (data : Dict)
    (h : (data.map Prod.fst).Nodup) :
    ((nameDefaulted data).map Prod.fst).Nodup := by
  unfold nameDefaulted
  cases hn : dlookup data "name" with
  | some v => exact h
  | none => exact nodup_keys_dinsert data _ _ h

/-- With username and password present and a truthy token returned,
`validate_input` succeeds and hands back the name-defaulted dict. -/
theorem validate_input_success (env : EdilkaminEnv) (data : Dict)
    {u p t : String}
    (hu : dlookup data "username" = some u)
    (hp : dlookup data "password" = some p)
    (henv : env u p = .token t) (ht : t ≠ "") :
    validate_input env data = (nameDefaulted data, .ok ()) := by
  simp [validate_input, hu, hp, authenticate, henv, ht]

/-- When `validate_input` fails, `async_step_cred` re-shows the
credential form with the mapped error code and returns the state
untouched. -/
theorem cred_error_shows_form (env : EdilkaminEnv) (s : ConfigFlowState)
    (input input1 : Dict) (e : PyExc)
    (h : validate_input env input = (input1, .error e)) :
    async_step_cred env s (some input) =
      (s, .showForm "cred" [("base", errCode e)]) := by
  simp [async_step_cred, h]

/-! ### Claims -/

/-- C3: inside `EdilkaminHub.authenticate`, an exceptional sign-in is
mapped to exactly one of two signals: an exception whose class name is
`"NotAuthorizedException"` is re-raised as `InvalidAuth`, and every
other exception (transport failures included) as `CannotConnect`; no
other error kind can result from an exceptional sign-in. -/
theorem C3_exception_mapping (env : EdilkaminEnv) (u p n : String)
    (henv : env u p = .raise n) :
    authenticate env u p =
      .error (if n = "NotAuthorizedException" then PyExc.invalidAuth
              else PyExc.cannotConnect) := by
  by_cases hn : n = "NotAuthorizedException" <;>
    simp [authenticate, henv, hn]

/-- C3 witness: a `NotAuthorizedException` sign-in yields `InvalidAuth`
and a `ReadTimeout` sign-in yields `CannotConnect`. -/
theorem C3_exception_mapping_witness :
    authenticate (fun _ _ => .raise "NotAuthorizedException") "u" "p" =
      .error PyExc.invalidAuth ∧
    authenticate (fun _ _ => .raise "ReadTimeout") "u" "p" =
      .error PyExc.cannotConnect := by
  constructor
  · rw [C3_exception_mapping (fun _ _ => .raise "NotAuthorizedException")
      "u" "p" "NotAuthorizedException" rfl]
    rfl
  · rw [C3_exception_mapping (fun _ _ => .raise "ReadTimeout")
      "u" "p" "ReadTimeout" rfl]
    rfl

/-- C4: at the manual MAC-entry step, a submitted string failing
`is_valid_mac_address` re-presents the `user` form annotated
`invalid_mac` with the flow state unchanged, while an accepted string is
normalized, stored under `"mac"`, and the wizard moves on to the
credential form. -/
theorem C4_mac_validation (env : EdilkaminEnv) (s : ConfigFlowState)
    (input : Dict) (m : String) (hm : dlookup input "mac" = some m) :
    (is_valid_mac_address m = false →
      async_step_user env s (some input) =
        (s, .showForm "user" [("base", "invalid_mac")])) ∧
    (is_valid_mac_address m = true →
      async_step_user env s (some input) =
        ({ s with data := dinsert s.data "mac" (format_mac m) },
          .showForm "cred" [])) := by
  constructor
  · intro hv
    simp [async_step_user, hm, hv]
  · intro hv
    simp [async_step_user, hm, hv, async_step_cred]

/-- C4 witness: submitting `"not-a-mac"` re-shows the MAC form with
`invalid_mac` and leaves the fresh flow state unchanged. -/
theorem C4_mac_validation_witness :
    async_step_user (fun _ _ => .token "tok") initFlow
        (some [("mac", "not-a-mac")]) =
      (initFlow, .showForm "user" [("base", "invalid_mac")]) :=
  (C4_mac_validation (fun _ _ => .token "tok") initFlow
    [("mac", "not-a-mac")] "not-a-mac" (by decide)).1 (by decide)

/-- C5: whenever `validate_input` fails — `CannotConnect`,
`InvalidAuth`, or any other exception — the credential form is re-shown
with the corresponding code (`cannot_connect`, `invalid_auth`,
`unknown`) and the flow state is returned exactly as it was: the stored
MAC survives and the failing credentials are not merged. -/
theorem C5_failure_preserves_state (env : EdilkaminEnv)
    (s : ConfigFlowState) (input input1 : Dict) (e : PyExc)
    (h : validate_input env input = (input1, .error e)) :
    async_step_cred env s (some input) =
      (s, .showForm "cred" [("base", errCode e)]) :=
  cred_error_shows_form env s input input1 e h

/-- C5 witness: with bad credentials the credential form is re-shown
with `invalid_auth` and the previously stored MAC is untouched. -/
theorem C5_failure_preserves_state_witness :
    async_step_cred (fun _ _ => .raise "NotAuthorizedException")
        ⟨none, none, [("mac", "aa:bb:cc:dd:ee:ff")]⟩
        (some [("username", "u"), ("password", "p")]) =
      (⟨none, none, [("mac", "aa:bb:cc:dd:ee:ff")]⟩,
        .showForm "cred" [("base", "invalid_auth")]) := by
  have h := C5_failure_preserves_state
    (fun _ _ => .raise "NotAuthorizedException")
    ⟨none, none, [("mac", "aa:bb:cc:dd:ee:ff")]⟩
    [("username", "u"), ("password", "p")]
    [("username", "u"), ("password", "p"), ("name", "Pellet Stove")]
    PyExc.invalidAuth rfl
  simpa [errCode] using h

/-- C6: a sign-in that returns without raising but yields a falsy token
is handled exactly like bad credentials: `validate_input` raises
`InvalidAuth` and the credential form is re-shown annotated
`invalid_auth`. -/
theorem C6_falsy_token_invalid_auth (env : EdilkaminEnv)
    (s : ConfigFlowState) (input : Dict) (u p : String)
    (hu : dlookup input "username" = some u)
    (hp : dlookup input "password" = some p)
    (henv : env u p = .token "") :
    (validate_input env input).2 = .error PyExc.invalidAuth ∧
    async_step_cred env s (some input) =
      (s, .showForm "cred" [("base", "invalid_auth")]) := by
  have hvi : validate_input env input =
      (nameDefaulted input, .error PyExc.invalidAuth) := by
    simp [validate_input, hu, hp, authenticate, henv]
  refine ⟨by rw [hvi], ?_⟩
  simpa [errCode] using
    cred_error_shows_form env s input (nameDefaulted input)
      PyExc.invalidAuth hvi

/-- C6 witness: an empty-token sign-in on a concrete submission behaves
as `invalid_auth`. -/
theorem C6_falsy_token_invalid_auth_witness :
    (validate_input (fun _ _ => .token "")
        [("username", "u"), ("password", "p")]).2 =
      .error PyExc.invalidAuth ∧
    async_step_cred (fun _ _ => .token "")
        ⟨none, none, [("mac", "aa:bb:cc:dd:ee:ff")]⟩
        (some [("username", "u"), ("password", "p")]) =
      (⟨none, none, [("mac", "aa:bb:cc:dd:ee:ff")]⟩,
        .showForm "cred" [("base", "invalid_auth")]) :=
  C6_falsy_token_invalid_auth (fun _ _ => .token "")
    ⟨none, none, [("mac", "aa:bb:cc:dd:ee:ff")]⟩
    [("username", "u"), ("password", "p")] "u" "p"
    (by decide) (by decide) rfl

/-- C8: an exception that is neither `CannotConnect` nor `InvalidAuth`
escaping `validate_input` (modelled: a `KeyError`, whatever its key)
re-presents the credential form with the constant code `unknown`; the
exception's detail never appears in the form shown to the user. -/
theorem C8_unknown_error (env : EdilkaminEnv) (s : ConfigFlowState)
    (input input1 : Dict) (k : String)
    (h : validate_input env input = (input1, .error (.keyError k))) :
    async_step_cred env s (some input) =
      (s, .showForm "cred" [("base", "unknown")]) := by
  simpa [errCode] using
    cred_error_shows_form env s input input1 (.keyError k) h

/-- C8 witness: a submission missing the password raises a `KeyError`
and re-shows the credential form with `unknown`. -/
theorem C8_unknown_error_witness :
    async_step_cred (fun _ _ => .token "tok") initFlow
        (some [("username", "u")]) =
      (initFlow, .showForm "cred" [("base", "unknown")]) :=
  C8_unknown_error (fun _ _ => .token "tok") initFlow
    [("username", "u")] [("username", "u")] "password" rfl

/-- C1: with a MAC `m` already stored in the flow state, a credential
submission for which sign-in returns a truthy token makes the wizard
emit exactly one entry — the single `createEntry` result — whose
display title and stored `mac` (the record's unique identifier) equal
`m`, whose `username`/`password` equal the submitted credentials, and
whose `name` is `"Pellet Stove"` whenever the submission omitted one. -/
theorem C1_success_entry (env : EdilkaminEnv) (s : ConfigFlowState)
    (input : Dict) (m u p t : String)
    (hmac : dlookup s.data "mac" = some m)
    (hnomac : dlookup input "mac" = none)
    (hu : dlookup input "username" = some u)
    (hp : dlookup input "password" = some p)
    (hnd : (input.map Prod.fst).Nodup)
    (henv : env u p = .token t) (ht : t ≠ "") :
    ∃ d : Dict,
      async_step_cred env s (some input) =
        ({ s with data := d }, .createEntry m d) ∧
      dlookup d "mac" = some m ∧
      dlookup d "username" = some u ∧
      dlookup d "password" = some p ∧
      (dlookup input "name" = none →
        dlookup d "name" = some "Pellet Stove") := by
  have hvi := validate_input_success env input hu hp henv ht
  have hnd1 := nodup_keys_nameDefaulted input hnd
  have hdm : dlookup (dmerge s.data (nameDefaulted input)) "mac" = some m := by
    have h0 : dlookup (nameDefaulted input) "mac" = none := by
      rw [dlookup_nameDefaulted_ne input (by decide)]
      exact hnomac
    rw [dlookup_dmerge_none _ _ h0]
    exact hmac
  refine ⟨dmerge s.data (nameDefaulted input), ?_, hdm, ?_, ?_, ?_⟩
  · simp only [async_step_cred, hvi]
    simp [hdm]
  · have h0 : dlookup (nameDefaulted input) "username" = some u := by
      rw [dlookup_nameDefaulted_ne input (by decide)]
      exact hu
    exact dlookup_dmerge_some _ _ hnd1 h0
  · have h0 : dlookup (nameDefaulted input) "password" = some p := by
      rw [dlookup_nameDefaulted_ne input (by decide)]
      exact hp
    exact dlookup_dmerge_some _ _ hnd1 h0
  · intro hname
    exact dlookup_dmerge_some _ _ hnd1
      (dlookup_nameDefaulted_name_none input hname)

/-- C1 witness: with `"aa:bb:cc:dd:ee:ff"` stored and credentials
`("user", "pass")` accepted, the entry carries that MAC as title and
unique identifier, the credentials, and the default display name. -/
theorem C1_success_entry_witness :
    ∃ d : Dict,
      async_step_cred (fun _ _ => .token "tok")
          ⟨none, none, [("mac", "aa:bb:cc:dd:ee:ff")]⟩
          (some [("username", "user"), ("password", "pass")]) =
        ({ (⟨none, none, [("mac", "aa:bb:cc:dd:ee:ff")]⟩ : ConfigFlowState)
            with data := d }, .createEntry "aa:bb:cc:dd:ee:ff" d) ∧
      dlookup d "mac" = some "aa:bb:cc:dd:ee:ff" ∧
      dlookup d "username" = some "user" ∧
      dlookup d "password" = some "pass" ∧
      (dlookup [("username", "user"), ("password", "pass")] "name" = none →
        dlookup d "name" = some "Pellet Stove") :=
  C1_success_entry (fun _ _ => .token "tok")
    ⟨none, none, [("mac", "aa:bb:cc:dd:ee:ff")]⟩
    [("username", "user"), ("password", "pass")]
    "aa:bb:cc:dd:ee:ff" "user" "pass" "tok"
    (by decide) (by decide) (by decide) (by decide) (by decide)
    rfl (by decide)

/-- C2 counterexample: take `"aa:bb:cc:dd:ee:ff"` as the unique id of an
already-persisted record.  The manual MAC-entry step — whose step
functions never consult the persisted records at all — still accepts
that very MAC and moves on to the credential form; the following
credential submission does invoke the authentication service (its
outcome depends on the sign-in result: compare the last two conjuncts)
and emits a second record with the duplicated MAC as unique
identifier. -/
theorem C2_manual_duplicate_not_rejected :
    async_step_user (fun _ _ => .token "tok") initFlow
        (some [("mac", "aa:bb:cc:dd:ee:ff")]) =
      (⟨none, none, [("mac", "aa:bb:cc:dd:ee:ff")]⟩,
        .showForm "cred" []) ∧
    (async_step_cred (fun _ _ => .token "tok")
        ⟨none, none, [("mac", "aa:bb:cc:dd:ee:ff")]⟩
        (some [("username", "u"), ("password", "p")])).2 =
      .createEntry "aa:bb:cc:dd:ee:ff"
        [("mac", "aa:bb:cc:dd:ee:ff"), ("username", "u"),
         ("password", "p"), ("name", "Pellet Stove")] ∧
    (async_step_cred (fun _ _ => .raise "ReadTimeout")
        ⟨none, none, [("mac", "aa:bb:cc:dd:ee:ff")]⟩
        (some [("username", "u"), ("password", "p")])).2 =
      .showForm "cred" [("base", "cannot_connect")] :=
  ⟨by decide, by decide, by decide⟩

/-- C2 (amended): only the discovery entry path rejects an
already-configured MAC, and it does so silently — the wizard aborts
before any network call: the abort is produced whatever the
authentication environment, which is never invoked. -/
theorem C2_discovery_duplicate_abort (env1 env2 : EdilkaminEnv)
    (configured : List String) (s : ConfigFlowState) (addr : String)
    (h : format_mac addr ∈ configured) :
    (async_step_dhcp env1 configured s addr).2 =
      .abort "already_configured" ∧
    async_step_dhcp env1 configured s addr =
      async_step_dhcp env2 configured s addr := by
  constructor
  · simp [async_step_dhcp, handle_discovery, h]
  · simp [async_step_dhcp, handle_discovery, h]

/-- C2 (amended) witness: re-discovery of a configured device aborts,
independently of what the authentication service would answer. -/
theorem C2_discovery_duplicate_abort_witness :
    (async_step_dhcp (fun _ _ => .token "tok") ["aa:bb:cc:dd:ee:ff"]
        initFlow "AA:BB:CC:DD:EE:FF").2 = .abort "already_configured" ∧
    async_step_dhcp (fun _ _ => .token "tok") ["aa:bb:cc:dd:ee:ff"]
        initFlow "AA:BB:CC:DD:EE:FF" =
      async_step_dhcp (fun _ _ => .raise "ReadTimeout")
        ["aa:bb:cc:dd:ee:ff"] initFlow "AA:BB:CC:DD:EE:FF" :=
  C2_discovery_duplicate_abort (fun _ _ => .token "tok")
    (fun _ _ => .raise "ReadTimeout") ["aa:bb:cc:dd:ee:ff"]
    initFlow "AA:BB:CC:DD:EE:FF" (by decide)

/-- C7: normalization of accepted MAC strings is canonical:
`format_mac` agrees with `canonicalMac` on every accepted input, two
accepted inputs carrying the same hex digits once delimiters are
stripped and case is folded normalize to the same string, and
`"AA-BB-CC-DD-EE-FF"` normalizes to `"aa:bb:cc:dd:ee:ff"`. -/
theorem C7_normalization_canonical :
    (∀ s : String, is_valid_mac_address s = true →
      format_mac s = canonicalMac s) ∧
    (∀ s1 s2 : String, is_valid_mac_address s1 = true →
      is_valid_mac_address s2 = true → stripLower s1 = stripLower s2 →
      format_mac s1 = format_mac s2) ∧
    format_mac "AA-BB-CC-DD-EE-FF" = "aa:bb:cc:dd:ee:ff" := by
  refine ⟨?_, ?_, by decide⟩
  · intro s hs
    simp [format_mac, hs]
  · intro s1 s2 h1 h2 h12
    simp [format_mac, h1, h2, canonicalMac, h12]

/-- C7 witness: the undelimited uppercase form normalizes canonically
and agrees with the hyphenated lowercase form of the same digits. -/
theorem C7_normalization_canonical_witness :
    format_mac "AABBCCDDEEFF" = canonicalMac "AABBCCDDEEFF" ∧
    format_mac "AABBCCDDEEFF" = format_mac "aa-bb-cc-dd-ee-ff" :=
  ⟨C7_normalization_canonical.1 "AABBCCDDEEFF" (by decide),
    C7_normalization_canonical.2.1 "AABBCCDDEEFF" "aa-bb-cc-dd-ee-ff"
      (by decide) (by decide) (by decide)⟩

/-- C9: the discovery path performs no MAC syntax validation: every
discovered address string, whatever its syntax, is normalized, stored
under `"mac"`, set as unique id, and — absent a duplicate — the wizard
proceeds directly to the credential form; `invalid_mac` cannot arise
here. -/
theorem C9_discovery_no_validation (env : EdilkaminEnv)
    (configured : List String) (s : ConfigFlowState) (addr : String)
    (h : format_mac addr ∉ configured) :
    async_step_dhcp env configured s addr =
      ({ s with discovered_mac := some addr,
                unique_id := some (format_mac addr),
                data := dinsert s.data "mac" (format_mac addr) },
        .showForm "cred" []) := by
  simp [async_step_dhcp, handle_discovery, h, async_step_cred]

/-- C9 witness: the syntactically invalid discovery string
`"not-a-mac"` is stored as-is and the wizard proceeds to the
credential form. -/
theorem C9_discovery_no_validation_witness :
    async_step_dhcp (fun _ _ => .token "tok") [] initFlow "not-a-mac" =
      (⟨some "not-a-mac", some "not-a-mac", [("mac", "not-a-mac")]⟩,
        .showForm "cred" []) := by
  rw [C9_discovery_no_validation (fun _ _ => .token "tok") [] initFlow
    "not-a-mac" (by decide)]
  decide

/-- C10: on a credential submission carrying both credentials,
(i) the submitted dict is display-name-defaulted before the sign-in
call, whatever the sign-in outcome — so also when authentication then
fails; (ii) on success the entry's data is the accumulated flow state
overridden by the (defaulted) submission, submission winning on shared
keys; and (iii) the value of a truthy token never influences the
result, so the token cannot appear in the emitted record. -/
theorem C10_merge_and_token (env1 env2 : EdilkaminEnv)
    (s : ConfigFlowState) (input : Dict) (u p t1 t2 : String)
    (hu : dlookup input "username" = some u)
    (hp : dlookup input "password" = some p)
    (hnd : (input.map Prod.fst).Nodup)
    (h1 : env1 u p = .token t1) (ht1 : t1 ≠ "")
    (h2 : env2 u p = .token t2) (ht2 : t2 ≠ "") :
    (∀ env : EdilkaminEnv,
      (validate_input env input).1 = nameDefaulted input) ∧
    (∀ k v : String, dlookup (nameDefaulted input) k = some v →
      dlookup (async_step_cred env1 s (some input)).1.data k = some v) ∧
    (∀ k : String, dlookup (nameDefaulted input) k = none →
      dlookup (async_step_cred env1 s (some input)).1.data k =
        dlookup s.data k) ∧
    async_step_cred env1 s (some input) =
      async_step_cred env2 s (some input) := by
  have hvi1 := validate_input_success env1 input hu hp h1 ht1
  have hvi2 := validate_input_success env2 input hu hp h2 ht2
  have hnd1 := nodup_keys_nameDefaulted input hnd
  have hstate : (async_step_cred env1 s (some input)).1.data =
      dmerge s.data (nameDefaulted input) := by
    simp only [async_step_cred, hvi1]
    cases hm : dlookup (dmerge s.data (nameDefaulted input)) "mac" <;>
      simp [hm]
  refine ⟨?_, ?_, ?_, ?_⟩
  · intro env
    rcases hA : authenticate env u p with e | tok
    · simp [validate_input, hu, hp, hA]
    · by_cases htok : tok = "" <;> simp [validate_input, hu, hp, hA, htok]
  · intro k v hk
    rw [hstate]
    exact dlookup_dmerge_some _ _ hnd1 hk
  · intro k hk
    rw [hstate]
    exact dlookup_dmerge_none _ _ hk
  · simp only [async_step_cred, hvi1, hvi2]

/-- C10 witness: two different truthy tokens produce identical results
on a concrete submission, which is name-defaulted before sign-in and
merged over the stored MAC. -/
theorem C10_merge_and_token_witness :
    (∀ env : EdilkaminEnv,
      (validate_input env [("username", "u"), ("password", "p")]).1 =
        nameDefaulted [("username", "u"), ("password", "p")]) ∧
    (∀ k v : String,
      dlookup (nameDefaulted [("username", "u"), ("password", "p")]) k =
          some v →
      dlookup (async_step_cred (fun _ _ => .token "tokenA")
          ⟨none, none, [("mac", "aa:bb:cc:dd:ee:ff")]⟩
          (some [("username", "u"), ("password", "p")])).1.data k =
        some v) ∧
    (∀ k : String,
      dlookup (nameDefaulted [("username", "u"), ("password", "p")]) k =
          none →
      dlookup (async_step_cred (fun _ _ => .token "tokenA")
          ⟨none, none, [("mac", "aa:bb:cc:dd:ee:ff")]⟩
          (some [("username", "u"), ("password", "p")])).1.data k =
        dlookup [("mac", "aa:bb:cc:dd:ee:ff")] k) ∧
    async_step_cred (fun _ _ => .token "tokenA")
        ⟨none, none, [("mac", "aa:bb:cc:dd:ee:ff")]⟩
        (some [("username", "u"), ("password", "p")]) =
      async_step_cred (fun _ _ => .token "tokenB")
        ⟨none, none, [("mac", "aa:bb:cc:dd:ee:ff")]⟩
        (some [("username", "u"), ("password", "p")]) :=
  C10_merge_and_token (fun _ _ => .token "tokenA")
    (fun _ _ => .token "tokenB")
    ⟨none, none, [("mac", "aa:bb:cc:dd:ee:ff")]⟩
    [("username", "u"), ("password", "p")] "u" "p" "tokenA" "tokenB"
    (by decide) (by decide) (by decide) rfl (by decide) rfl (by decide)

end Edilkamin
